import Mathlib

/-
Verification of the real-time voice console pipeline
(src/python/real-time-voice/src/real_time_voice/voice_console.py).

The Python module is embedded shallowly: the mutable fields of
AudioProcessor and BasicVoiceAssistant become a record, each method
becomes a pure state-transformer, and the event handler becomes a total
function from events to states plus the list of outbound commands it
issues. Device opens that can raise are driven by an explicit boolean
oracle, and a raised exception is an Except.error result.
-/

namespace VoiceConsole

/-! ### Base64 transport encoding

`_capture_audio_thread` encodes each captured frame with
`base64.b64encode(audio_data).decode("utf-8")`.  Bytes are modelled as
natural numbers below 256, the encoded payload as a list of characters. -/

def b64chars : List Char :=
  ['A', 'B', 'C', 'D', 'E', 'F', 'G', 'H', 'I', 'J', 'K', 'L', 'M',
   'N', 'O', 'P', 'Q', 'R', 'S', 'T', 'U', 'V', 'W', 'X', 'Y', 'Z',
   'a', 'b', 'c', 'd', 'e', 'f', 'g', 'h', 'i', 'j', 'k', 'l', 'm',
   'n', 'o', 'p', 'q', 'r', 's', 't', 'u', 'v', 'w', 'x', 'y', 'z',
   '0', '1', '2', '3', '4', '5', '6', '7', '8', '9', '+', '/']

def tbl (n : Nat) : Char := b64chars.getD n 'A'

def tblInv (c : Char) : Nat := b64chars.indexOf c

lemma tblInv_tbl {n : Nat} (h : n < 64) : tblInv (tbl n) = n := by
  have key : ∀ m : Fin 64, tblInv (tbl m.val) = m.val := by decide
  exact key ⟨n, h⟩

lemma tbl_ne_eq (n : Nat) : tbl n ≠ '=' := by
  by_cases h : n < 64
  · have key : ∀ m : Fin 64, tbl m.val ≠ '=' := by decide
    exact key ⟨n, h⟩
  · have hlen : b64chars.length = 64 := by decide
    have : tbl n = 'A' := by
      unfold tbl
      exact List.getD_eq_default _ _ (by omega)
    simp [this]

/-- Standard base64 of a byte sequence, three bytes to four characters,
with trailing `=` padding, as performed by the Python stdlib on the
capture path. -/
def b64encode : List Nat → List Char
  | [] => []
  | [a] => [tbl (a / 4), tbl (a % 4 * 16), '=', '=']
  | [a, b] => [tbl (a / 4), tbl (a % 4 * 16 + b / 16), tbl (b % 16 * 4), '=']
  | a :: b :: c :: rest =>
      tbl (a / 4) :: tbl (a % 4 * 16 + b / 16) :: tbl (b % 16 * 4 + c / 64)
        :: tbl (c % 64) :: b64encode rest

/-- Base64 decoding, four characters to three bytes, honouring `=`
padding in the final group. -/
def b64decode : List Char → List Nat
  | c1 :: c2 :: c3 :: c4 :: rest =>
      if c3 = '=' then [tblInv c1 * 4 + tblInv c2 / 16]
      else if c4 = '=' then
        [tblInv c1 * 4 + tblInv c2 / 16, tblInv c2 % 16 * 16 + tblInv c3 / 4]
      else
        (tblInv c1 * 4 + tblInv c2 / 16) :: (tblInv c2 % 16 * 16 + tblInv c3 / 4)
          :: (tblInv c3 % 4 * 64 + tblInv c4) :: b64decode rest
  | _ => []

lemma b64decode_b64encode (bs : List Nat) (h : ∀ b ∈ bs, b < 256) :
    b64decode (b64encode bs) = bs := by
  induction bs using b64encode.induct with
  | case1 => simp [b64encode, b64decode]
  | case2 a =>
      have ha : a < 256 := h a (by simp)
      have h1 : a / 4 < 64 := by omega
      have h2 : a % 4 * 16 < 64 := by omega
      simp only [b64encode, b64decode, if_pos rfl]
      rw [tblInv_tbl h1, tblInv_tbl h2]
      simp
      omega
  | case3 a b =>
      have ha : a < 256 := h a (by simp)
      have hb : b < 256 := h b (by simp)
      have h1 : a / 4 < 64 := by omega
      have h2 : a % 4 * 16 + b / 16 < 64 := by omega
      have h3 : b % 16 * 4 < 64 := by omega
      simp only [b64encode, b64decode, if_neg (tbl_ne_eq _), if_pos rfl]
      rw [tblInv_tbl h1, tblInv_tbl h2, tblInv_tbl h3]
      simp
      omega
  | case4 a b c rest ih =>
      have ha : a < 256 := h a (by simp)
      have hb : b < 256 := h b (by simp)
      have hc : c < 256 := h c (by simp)
      have h1 : a / 4 < 64 := by omega
      have h2 : a % 4 * 16 + b / 16 < 64 := by omega
      have h3 : b % 16 * 4 + c / 64 < 64 := by omega
      have h4 : c % 64 < 64 := by omega
      have hrest : ∀ x ∈ rest, x < 256 := fun x hx => h x (by simp [hx])
      simp only [b64encode, b64decode, if_neg (tbl_ne_eq _)]
      rw [tblInv_tbl h1, tblInv_tbl h2, tblInv_tbl h3, tblInv_tbl h4]
      have e1 : a / 4 * 4 + (a % 4 * 16 + b / 16) / 16 = a := by omega
      have e2 : (a % 4 * 16 + b / 16) % 16 * 16 + (b % 16 * 4 + c / 64) / 4 = b := by omega
      have e3 : (b % 16 * 4 + c / 64) % 4 * 64 + c % 64 = c := by omega
      simp [e1, e2, e3, ih hrest]

/-! ### AudioProcessor

The mutable attributes of the Python class become record fields; each
async method becomes a pure state transformer.  Worker threads are
represented by flags meaning the worker is running; per the design the
workers observe the running flag and terminate once it is cleared, and
event dispatch is strictly sequential, so each method call is executed
atomically against this state. -/

/-- A raw PCM16 frame as delivered by the device layer: a byte string. -/
abbrev Frame := List Nat

structure APState where
  isCapturing : Bool
  isPlaying : Bool
  inputStreamOpen : Bool
  outputStreamOpen : Bool
  captureThread : Bool
  sendThread : Bool
  playbackThread : Bool
  /-- self.audio_queue, FIFO of raw frames awaiting playback. -/
  audioQueue : List Frame
  /-- self.audio_send_queue, FIFO of base64 payloads awaiting send. -/
  audioSendQueue : List (List Char)
  /-- payloads handed to connection.input_audio_buffer.append, in order. -/
  sentLog : List (List Char)
  deriving Repr, DecidableEq

/-- The freshly constructed AudioProcessor: nothing running, both queues
empty. -/
def APState.init : APState :=
  { isCapturing := false, isPlaying := false, inputStreamOpen := false,
    outputStreamOpen := false, captureThread := false, sendThread := false,
    playbackThread := false, audioQueue := [], audioSendQueue := [],
    sentLog := [] }

/-- start_capture: early return when already capturing; otherwise set
is_capturing, open the input stream (the oracle deviceOk says whether
self.audio.open succeeds) and spawn the capture and send threads; on an
open failure reset is_capturing and re-raise. -/
def start_capture (deviceOk : Bool) (s : APState) : APState × Except Unit Unit :=
  if s.isCapturing then (s, .ok ())
  else
    let s1 := { s with isCapturing := true }
    if deviceOk then
      ({ s1 with inputStreamOpen := true, captureThread := true,
                 sendThread := true }, .ok ())
    else
      ({ s1 with isCapturing := false }, .error ())

/-- stop_capture: early return when not capturing; otherwise clear
is_capturing, close the input stream, join both workers (they exit on
seeing the cleared flag) and drain the send queue with get_nowait,
discarding every entry. -/
def stop_capture (s : APState) : APState :=
  if s.isCapturing then
    { s with isCapturing := false, inputStreamOpen := false,
             captureThread := false, sendThread := false,
             audioSendQueue := [] }
  else s

/-- start_playback: early return when already playing; otherwise set
is_playing, open the output stream and spawn the playback thread; on an
open failure reset is_playing and re-raise. -/
def start_playback (deviceOk : Bool) (s : APState) : APState × Except Unit Unit :=
  if s.isPlaying then (s, .ok ())
  else
    let s1 := { s with isPlaying := true }
    if deviceOk then
      ({ s1 with outputStreamOpen := true, playbackThread := true }, .ok ())
    else
      ({ s1 with isPlaying := false }, .error ())

/-- stop_playback: early return when not playing; otherwise clear
is_playing, drain and discard every queued frame, close the output
stream and join the playback thread. -/
def stop_playback (s : APState) : APState :=
  if s.isPlaying then
    { s with isPlaying := false, audioQueue := [],
             outputStreamOpen := false, playbackThread := false }
  else s

/-- queue_audio: push the frame on the playback FIFO when playing,
silently drop it otherwise. -/
def queue_audio (f : Frame) (s : APState) : APState :=
  if s.isPlaying then { s with audioQueue := s.audioQueue ++ [f] }
  else s

/-- One iteration of the _send_audio_thread loop body: while
is_capturing, pop the oldest payload from audio_send_queue and schedule
the append command on the connection. -/
def sendStep (s : APState) : APState :=
  if s.isCapturing then
    match s.audioSendQueue with
    | [] => s
    | p :: rest => { s with audioSendQueue := rest, sentLog := s.sentLog ++ [p] }
  else s

/-- The frames the playback worker will write to the output device, in
order, if no further event arrives: the queued frames while the line is
active, nothing once it is stopped. -/
def drainPlays (s : APState) : List Frame :=
  if s.isPlaying then s.audioQueue else []

/-- Invariant of every reachable AudioProcessor state: when playback is
inactive the playback queue is empty (enqueues are dropped while
inactive and stopping clears the queue). -/
def PlayInv (s : APState) : Prop :=
  s.isPlaying = false → s.audioQueue = []

lemma playInv_init : PlayInv APState.init := by
  simp [PlayInv, APState.init]

lemma playInv_start_capture {s : APState} (d : Bool) (h : PlayInv s) :
    PlayInv (start_capture d s).1 := by
  unfold start_capture PlayInv at *
  split <;> (try split) <;> simp_all

lemma playInv_stop_capture {s : APState} (h : PlayInv s) :
    PlayInv (stop_capture s) := by
  unfold stop_capture PlayInv at *
  split <;> simp_all

lemma playInv_start_playback {s : APState} (d : Bool) (h : PlayInv s) :
    PlayInv (start_playback d s).1 := by
  unfold start_playback PlayInv at *
  split <;> (try split) <;> simp_all

lemma playInv_stop_playback {s : APState} (h : PlayInv s) :
    PlayInv (stop_playback s) := by
  unfold stop_playback PlayInv at *
  split <;> simp_all

lemma playInv_queue_audio {s : APState} (f : Frame) (h : PlayInv s) :
    PlayInv (queue_audio f s) := by
  unfold queue_audio PlayInv at *
  split <;> simp_all

/-! ### BasicVoiceAssistant event handling -/

/-- Inbound server events, as dispatched on in _handle_event. -/
inductive Event where
  | sessionUpdated
  | speechStarted
  | speechStopped
  | responseCreated
  /-- RESPONSE_AUDIO_DELTA carrying event.delta, the raw audio bytes as
  delivered by the SDK event object. -/
  | audioDelta (delta : Frame)
  | audioDone
  | responseDone
  | errorEvent (msg : List Char)
  | conversationItemCreated
  | unknown
  deriving Repr, DecidableEq

/-- Outbound commands the handler issues on the connection. -/
inductive Action where
  | cancelResponse
  | appendAudio (payload : List Char)
  deriving Repr, DecidableEq

structure AssistantState where
  ap : APState
  sessionReady : Bool
  deriving Repr, DecidableEq

/-- Modelled from the spec: the DuplexChannel collaborator (the SDK
layer, outside this repository) parses an inbound audio-delta message
and hands the handler an event whose delta field holds the payload
decoded from transport form back to raw PCM bytes; the spec data model
places EncodedAudioPayload strictly between receive and decode. -/
def channelDeliver (payload : List Char) : Event :=
  Event.audioDelta (b64decode payload)

/-- The try/except around conn.response.cancel(): whatever the command
does, the exception is caught, logged at debug level, and the handler
continues normally. -/
def swallow (r : Except Unit Unit) : Except Unit Unit :=
  match r with
  | _ => .ok ()

/-- BasicVoiceAssistant._handle_event as a transformer of the assistant
state, also returning the outbound commands issued and whether the
handler raised.  deviceOk drives the audio-device opens inside
start_capture and start_playback; cancelOk is whether
conn.response.cancel() succeeds. -/
def handle_event (deviceOk cancelOk : Bool) (s : AssistantState) (e : Event) :
    (AssistantState × List Action) × Except Unit Unit :=
  match e with
  | .sessionUpdated =>
      let r := start_capture deviceOk s.ap
      ((⟨r.1, true⟩, []), r.2)
  | .speechStarted =>
      let ap1 := stop_playback s.ap
      let cancelResult : Except Unit Unit := if cancelOk then .ok () else .error ()
      ((⟨ap1, s.sessionReady⟩, [Action.cancelResponse]), swallow cancelResult)
  | .speechStopped =>
      let r := start_playback deviceOk s.ap
      ((⟨r.1, s.sessionReady⟩, []), r.2)
  | .audioDelta d =>
      ((⟨queue_audio d s.ap, s.sessionReady⟩, []), .ok ())
  | .responseCreated => ((s, []), .ok ())
  | .audioDone => ((s, []), .ok ())
  | .responseDone => ((s, []), .ok ())
  | .errorEvent _ => ((s, []), .ok ())
  | .conversationItemCreated => ((s, []), .ok ())
  | .unknown => ((s, []), .ok ())

lemma playInv_handle_event {s : AssistantState} (d c : Bool) (e : Event)
    (h : PlayInv s.ap) : PlayInv (handle_event d c s e).1.1.ap := by
  cases e with
  | sessionUpdated => exact playInv_start_capture d h
  | speechStarted => exact playInv_stop_playback h
  | speechStopped => exact playInv_start_playback d h
  | audioDelta f => exact playInv_queue_audio f h
  | responseCreated => exact h
  | audioDone => exact h
  | responseDone => exact h
  | errorEvent => exact h
  | conversationItemCreated => exact h
  | unknown => exact h

/-! ### Capture and transmit worker interleaving

_capture_audio_thread reads frames from the device and puts their
base64 encodings on audio_send_queue; _send_audio_thread pops payloads
and sends them.  The two threads interleave arbitrarily; a schedule is
a list of booleans, true meaning the capture thread runs one loop
iteration, false the send thread. -/

structure TxState where
  /-- frames the input device will deliver, oldest first. -/
  pending : List Frame
  /-- frames already read by the capture thread, in read order. -/
  readFrames : List Frame
  /-- audio_send_queue contents, oldest first. -/
  q : List (List Char)
  /-- payloads sent on the connection, in send order. -/
  sent : List (List Char)
  deriving Repr, DecidableEq

/-- One loop iteration of either worker: the capture thread reads the
next frame, encodes it and puts it at the back of the queue; the send
thread takes from the front of the queue and sends. -/
def txStep (captureTurn : Bool) (s : TxState) : TxState :=
  if captureTurn then
    match s.pending with
    | [] => s
    | f :: rest =>
        { s with pending := rest, readFrames := s.readFrames ++ [f],
                 q := s.q ++ [b64encode f] }
  else
    match s.q with
    | [] => s
    | p :: rest => { s with q := rest, sent := s.sent ++ [p] }

def txInit (fs : List Frame) : TxState :=
  { pending := fs, readFrames := [], q := [], sent := [] }

def txRun (sched : List Bool) (s : TxState) : TxState :=
  sched.foldl (fun t c => txStep c t) s

/-- FIFO invariant: the payloads sent so far followed by the queue
contents are exactly the encodings of the frames read so far, in read
order, and the frames read followed by the frames still pending are the
original device sequence. -/
def TxInv (fs : List Frame) (s : TxState) : Prop :=
  s.sent ++ s.q = s.readFrames.map b64encode ∧
  s.readFrames ++ s.pending = fs

lemma txInv_init (fs : List Frame) : TxInv fs (txInit fs) := by
  simp [TxInv, txInit]

lemma txInv_step {fs : List Frame} {s : TxState} (c : Bool)
    (h : TxInv fs s) : TxInv fs (txStep c s) := by
  obtain ⟨h1, h2⟩ := h
  unfold txStep
  split
  · cases hp : s.pending with
    | nil => exact ⟨h1, h2⟩
    | cons f rest =>
        refine ⟨?_, ?_⟩
        · simp only [List.map_append, List.map_cons, List.map_nil]
          rw [← List.append_assoc, h1]
        · rw [hp] at h2
          rw [List.append_assoc]
          simpa using h2
  · cases hq : s.q with
    | nil => exact ⟨h1, h2⟩
    | cons p rest =>
        refine ⟨?_, h2⟩
        rw [List.append_assoc]
        simpa [hq] using h1

lemma txInv_run (fs : List Frame) (sched : List Bool) :
    TxInv fs (txRun sched (txInit fs)) := by
  suffices key : ∀ t : TxState, TxInv fs t → TxInv fs (txRun sched t) from
    key _ (txInv_init fs)
  induction sched with
  | nil => intro t h; exact h
  | cons c cs ih =>
      intro t h
      exact ih _ (txInv_step c h)

/-! ### Session setup: voice configuration -/

/-- The two shapes self.voice can take in the session configuration. -/
inductive VoiceConfig where
  | azureStandard (name : List Char)
  | plain (name : List Char)
  deriving Repr, DecidableEq

/-- self.voice.startswith(p), on character lists. -/
def startsW : List Char → List Char → Bool
  | [], _ => true
  | _ :: _, [] => false
  | p :: ps, c :: cs => p == c && startsW ps cs

/-- The condition guarding the AzureStandardVoice branch in
_setup_session: startswith en-US- or startswith en-CA- or a hyphen
anywhere in the voice string. -/
def voiceIsAzure (v : List Char) : Bool :=
  startsW ['e', 'n', '-', 'U', 'S', '-'] v ||
  startsW ['e', 'n', '-', 'C', 'A', '-'] v ||
  v.any (fun c => c == '-')

/-- The voice_config value built by _setup_session. -/
def setupVoiceConfig (v : List Char) : VoiceConfig :=
  if voiceIsAzure v then VoiceConfig.azureStandard v else VoiceConfig.plain v

lemma startsW_any {p v : List Char} {f : Char → Bool}
    (h : startsW p v = true) (hp : p.any f = true) : v.any f = true := by
  induction p generalizing v with
  | nil => simp at hp
  | cons a ps ih =>
      cases v with
      | nil => simp [startsW] at h
      | cons c cs =>
          simp only [startsW, Bool.and_eq_true, beq_iff_eq] at h
          obtain ⟨rfl, hrest⟩ := h
          simp only [List.any_cons, Bool.or_eq_true] at hp ⊢
          rcases hp with hf | hp
          · exact Or.inl hf
          · exact Or.inr (ih hrest hp)

/-! ### Concrete sample states used by the witnesses -/

def sampleBusyAP : APState :=
  { APState.init with
      isPlaying := true, outputStreamOpen := true,
      playbackThread := true, audioQueue := [[0, 1], [2, 3]] }

def sampleCapturingAP : APState :=
  { APState.init with
      isCapturing := true, inputStreamOpen := true,
      captureThread := true, sendThread := true,
      audioSendQueue := [['Q'], ['R']], sentLog := [['P']] }

def sampleAssistant : AssistantState := ⟨sampleBusyAP, true⟩

/-! ### Claims -/

/-- Claim C1: on SpeechStarted the handler first stops the PlaybackLine,
so immediately afterwards the playback queue is empty and playback is
inactive, and it attempts exactly one response-cancel command on the
channel; when the cancel command raises, the exception is swallowed and
the handler completes normally, for either cancel outcome. -/
theorem speechStarted_interrupts_and_cancels_once
    (deviceOk cancelOk : Bool) (s : AssistantState) (h : PlayInv s.ap) :
    (handle_event deviceOk cancelOk s Event.speechStarted).1.1.ap.isPlaying = false ∧
    (handle_event deviceOk cancelOk s Event.speechStarted).1.1.ap.audioQueue = [] ∧
    (handle_event deviceOk cancelOk s Event.speechStarted).1.2 = [Action.cancelResponse] ∧
    (handle_event deviceOk cancelOk s Event.speechStarted).2 = Except.ok () := by
  unfold PlayInv at h
  unfold handle_event stop_playback swallow
  cases hp : s.ap.isPlaying <;> simp_all

theorem speechStarted_interrupts_witness :
    PlayInv sampleAssistant.ap ∧
    ((handle_event true false sampleAssistant Event.speechStarted).1.1.ap.isPlaying = false ∧
     (handle_event true false sampleAssistant Event.speechStarted).1.1.ap.audioQueue = [] ∧
     (handle_event true false sampleAssistant Event.speechStarted).1.2 = [Action.cancelResponse] ∧
     (handle_event true false sampleAssistant Event.speechStarted).2 = Except.ok ()) := by
  have hp : PlayInv sampleAssistant.ap := by
    intro hfalse
    simp [sampleAssistant, sampleBusyAP, APState.init] at hfalse
  exact ⟨hp, speechStarted_interrupts_and_cancels_once true false sampleAssistant hp⟩

/-- Claim C2: on AudioDelta the payload delivered by the channel is the
transport-decoded raw PCM frame; the handler enqueues exactly that frame
at the back of the PlaybackLine FIFO, changes nothing else, issues no
command, raises nothing, and the playback worker will write the decoded
PCM bytes, not the transport-encoded payload. -/
theorem audioDelta_enqueues_decoded_pcm
    (deviceOk cancelOk : Bool) (s : AssistantState) (f : Frame)
    (hplay : s.ap.isPlaying = true) (hbytes : ∀ b ∈ f, b < 256) :
    (handle_event deviceOk cancelOk s (channelDeliver (b64encode f))).1.1.ap =
      { s.ap with audioQueue := s.ap.audioQueue ++ [f] } ∧
    (handle_event deviceOk cancelOk s (channelDeliver (b64encode f))).1.1.sessionReady
      = s.sessionReady ∧
    (handle_event deviceOk cancelOk s (channelDeliver (b64encode f))).1.2 = [] ∧
    (handle_event deviceOk cancelOk s (channelDeliver (b64encode f))).2 = Except.ok () ∧
    drainPlays (handle_event deviceOk cancelOk s (channelDeliver (b64encode f))).1.1.ap
      = s.ap.audioQueue ++ [f] := by
  have hf : b64decode (b64encode f) = f := b64decode_b64encode f hbytes
  simp [channelDeliver, hf, handle_event, queue_audio, drainPlays, hplay]

theorem audioDelta_enqueues_witness :
    sampleAssistant.ap.isPlaying = true ∧
    (∀ b ∈ ([7, 200, 33] : Frame), b < 256) ∧
    ((handle_event true true sampleAssistant (channelDeliver (b64encode [7, 200, 33]))).1.1.ap =
      { sampleAssistant.ap with
          audioQueue := sampleAssistant.ap.audioQueue ++ [[7, 200, 33]] } ∧
     (handle_event true true sampleAssistant
        (channelDeliver (b64encode [7, 200, 33]))).1.1.sessionReady =
        sampleAssistant.sessionReady ∧
     (handle_event true true sampleAssistant (channelDeliver (b64encode [7, 200, 33]))).1.2 = [] ∧
     (handle_event true true sampleAssistant (channelDeliver (b64encode [7, 200, 33]))).2 =
        Except.ok () ∧
     drainPlays (handle_event true true sampleAssistant
        (channelDeliver (b64encode [7, 200, 33]))).1.1.ap =
        sampleAssistant.ap.audioQueue ++ [[7, 200, 33]]) :=
  ⟨rfl, by decide,
   audioDelta_enqueues_decoded_pcm true true sampleAssistant [7, 200, 33] rfl (by decide)⟩

/-- Claim C3: after stop then start then enqueue of a frame f, the
playback worker plays f exactly once and plays no frame that was queued
before the stop; and an enqueue while playback is inactive silently
drops the frame, leaving the state unchanged. -/
theorem playback_restart_plays_only_new_frame
    (s s2 : APState) (f : Frame) (h : PlayInv s) (h2 : s2.isPlaying = false) :
    drainPlays (queue_audio f (start_playback true (stop_playback s)).1) = [f] ∧
    (drainPlays (queue_audio f (start_playback true (stop_playback s)).1)).count f = 1 ∧
    (∀ g ∈ s.audioQueue, g ≠ f →
      g ∉ drainPlays (queue_audio f (start_playback true (stop_playback s)).1)) ∧
    queue_audio f s2 = s2 := by
  unfold PlayInv at h
  cases hp : s.isPlaying <;>
    simp_all [stop_playback, start_playback, queue_audio, drainPlays, h2]

theorem playback_restart_witness :
    PlayInv sampleBusyAP ∧
    APState.init.isPlaying = false ∧
    (drainPlays (queue_audio [5, 6] (start_playback true (stop_playback sampleBusyAP)).1) =
        [[5, 6]] ∧
     (drainPlays (queue_audio [5, 6]
        (start_playback true (stop_playback sampleBusyAP)).1)).count [5, 6] = 1 ∧
     (∀ g ∈ sampleBusyAP.audioQueue, g ≠ [5, 6] →
        g ∉ drainPlays (queue_audio [5, 6]
          (start_playback true (stop_playback sampleBusyAP)).1)) ∧
     queue_audio [5, 6] APState.init = APState.init) := by
  have hp : PlayInv sampleBusyAP := by
    intro hfalse
    simp [sampleBusyAP, APState.init] at hfalse
  exact ⟨hp, rfl, playback_restart_plays_only_new_frame sampleBusyAP APState.init [5, 6] hp rfl⟩

/-- Claim C4: under every interleaving of the capture worker and the
send worker, the payloads sent so far followed by the queue contents
equal the base64 encodings of the frames read so far in read order, and
the frames read so far extend to the original device sequence: encoded
payloads enter the transmit queue in read order and are removed and sent
in that same FIFO order. -/
theorem capture_transmit_fifo (fs : List Frame) (sched : List Bool) :
    (txRun sched (txInit fs)).sent ++ (txRun sched (txInit fs)).q =
      (txRun sched (txInit fs)).readFrames.map b64encode ∧
    (txRun sched (txInit fs)).readFrames ++ (txRun sched (txInit fs)).pending = fs :=
  txInv_run fs sched

/-- Claim C5: handling SessionUpdated while capture is inactive opens
the input stream and starts the capture and send workers; handling a
second SessionUpdated leaves the CaptureLine untouched whatever the
device oracle would do, so capture goes from not-capturing to capturing
exactly once. -/
theorem sessionUpdated_starts_capture_once
    (c1 c2 d2 : Bool) (s : AssistantState) (h : s.ap.isCapturing = false) :
    (handle_event true c1 s Event.sessionUpdated).1.1.ap.isCapturing = true ∧
    (handle_event true c1 s Event.sessionUpdated).1.1.ap.captureThread = true ∧
    (handle_event true c1 s Event.sessionUpdated).1.1.ap.sendThread = true ∧
    (handle_event true c1 s Event.sessionUpdated).1.1.ap.inputStreamOpen = true ∧
    (handle_event true c1 s Event.sessionUpdated).2 = Except.ok () ∧
    (handle_event d2 c2 (handle_event true c1 s Event.sessionUpdated).1.1
        Event.sessionUpdated).1.1.ap =
      (handle_event true c1 s Event.sessionUpdated).1.1.ap ∧
    (handle_event d2 c2 (handle_event true c1 s Event.sessionUpdated).1.1
        Event.sessionUpdated).2 = Except.ok () := by
  simp [handle_event, start_capture, h]

theorem sessionUpdated_starts_capture_witness :
    (AssistantState.mk APState.init false).ap.isCapturing = false ∧
    ((handle_event true true ⟨APState.init, false⟩ Event.sessionUpdated).1.1.ap.isCapturing
        = true ∧
     (handle_event true true ⟨APState.init, false⟩
        Event.sessionUpdated).1.1.ap.captureThread = true ∧
     (handle_event true true ⟨APState.init, false⟩
        Event.sessionUpdated).1.1.ap.sendThread = true ∧
     (handle_event true true ⟨APState.init, false⟩
        Event.sessionUpdated).1.1.ap.inputStreamOpen = true ∧
     (handle_event true true ⟨APState.init, false⟩ Event.sessionUpdated).2 = Except.ok () ∧
     (handle_event false true
        (handle_event true true ⟨APState.init, false⟩ Event.sessionUpdated).1.1
        Event.sessionUpdated).1.1.ap =
       (handle_event true true ⟨APState.init, false⟩ Event.sessionUpdated).1.1.ap ∧
     (handle_event false true
        (handle_event true true ⟨APState.init, false⟩ Event.sessionUpdated).1.1
        Event.sessionUpdated).2 = Except.ok ()) :=
  ⟨rfl, sessionUpdated_starts_capture_once true true false ⟨APState.init, false⟩ rfl⟩

/-- Claim C6: stop_capture is idempotent: a second call in a row is the
identity, after either call the line is inactive, and a call from a
non-capturing state changes nothing. -/
theorem stop_capture_idempotent (s : APState) :
    stop_capture (stop_capture s) = stop_capture s ∧
    (stop_capture s).isCapturing = false ∧
    (s.isCapturing = false → stop_capture s = s) := by
  unfold stop_capture
  cases hc : s.isCapturing <;> simp_all

theorem stop_capture_idempotent_witness :
    stop_capture (stop_capture sampleCapturingAP) = stop_capture sampleCapturingAP ∧
    (stop_capture sampleCapturingAP).isCapturing = false ∧
    (sampleCapturingAP.isCapturing = false → stop_capture sampleCapturingAP =
      sampleCapturingAP) :=
  stop_capture_idempotent sampleCapturingAP

/-- Claim C7: stopping an actively capturing line clears the running
flag, closes the input stream and empties the transmit queue; the
payloads that were queued but unsent are dropped, not sent: the send log
is unchanged and the send worker, seeing the cleared flag, sends nothing
further. -/
theorem stop_capture_drops_unsent (s : APState) (h : s.isCapturing = true) :
    (stop_capture s).isCapturing = false ∧
    (stop_capture s).inputStreamOpen = false ∧
    (stop_capture s).audioSendQueue = [] ∧
    (stop_capture s).sentLog = s.sentLog ∧
    sendStep (stop_capture s) = stop_capture s := by
  simp [stop_capture, sendStep, h]

theorem stop_capture_drops_unsent_witness :
    sampleCapturingAP.isCapturing = true ∧
    ((stop_capture sampleCapturingAP).isCapturing = false ∧
     (stop_capture sampleCapturingAP).inputStreamOpen = false ∧
     (stop_capture sampleCapturingAP).audioSendQueue = [] ∧
     (stop_capture sampleCapturingAP).sentLog = sampleCapturingAP.sentLog ∧
     sendStep (stop_capture sampleCapturingAP) = stop_capture sampleCapturingAP) :=
  ⟨rfl, stop_capture_drops_unsent sampleCapturingAP rfl⟩

/-- Claim C8: when opening the input device stream fails, start_capture
raises the error to its caller and leaves the line exactly as it was:
not capturing and, the line having been idle, with no worker running and
no stream open. -/
theorem start_capture_failure_leaves_state (s : APState)
    (h : s.isCapturing = false) (hct : s.captureThread = false)
    (hst : s.sendThread = false) :
    start_capture false s = (s, Except.error ()) ∧
    (start_capture false s).1.isCapturing = false ∧
    (start_capture false s).1.captureThread = false ∧
    (start_capture false s).1.sendThread = false ∧
    (start_capture false s).1.inputStreamOpen = s.inputStreamOpen := by
  cases s
  simp_all [start_capture]

theorem start_capture_failure_witness :
    APState.init.isCapturing = false ∧
    APState.init.captureThread = false ∧
    APState.init.sendThread = false ∧
    (start_capture false APState.init = (APState.init, Except.error ()) ∧
     (start_capture false APState.init).1.isCapturing = false ∧
     (start_capture false APState.init).1.captureThread = false ∧
     (start_capture false APState.init).1.sendThread = false ∧
     (start_capture false APState.init).1.inputStreamOpen = APState.init.inputStreamOpen) :=
  ⟨rfl, rfl, rfl, start_capture_failure_leaves_state APState.init rfl rfl rfl⟩

/-- Claim C9: base64 transport encoding is lossless on PCM data: for
every byte sequence, decoding the encoding yields the identical bytes. -/
theorem b64_transport_roundtrip (bs : List Nat) (h : ∀ b ∈ bs, b < 256) :
    b64decode (b64encode bs) = bs :=
  b64decode_b64encode bs h

theorem b64_transport_roundtrip_witness :
    (∀ b ∈ ([0, 255, 77, 16] : List Nat), b < 256) ∧
    b64decode (b64encode [0, 255, 77, 16]) = [0, 255, 77, 16] :=
  ⟨by decide, b64_transport_roundtrip [0, 255, 77, 16] (by decide)⟩

/-- Claim C10: the session-setup voice configuration is the structured
Azure standard voice exactly when the voice string contains a hyphen,
and the plain string otherwise: the explicit en-US- and en-CA- checks
are subsumed by the general hyphen test. -/
theorem azure_voice_iff_hyphen (v : List Char) :
    voiceIsAzure v = v.any (fun c => c == '-') ∧
    (setupVoiceConfig v = VoiceConfig.azureStandard v ↔
      v.any (fun c => c == '-') = true) ∧
    (setupVoiceConfig v = VoiceConfig.plain v ↔
      v.any (fun c => c == '-') = false) := by
  have key : voiceIsAzure v = v.any (fun c => c == '-') := by
    unfold voiceIsAzure
    cases hv : v.any (fun c => c == '-') with
    | true => simp [hv]
    | false =>
        simp only [Bool.or_false]
        cases h1 : startsW ['e', 'n', '-', 'U', 'S', '-'] v with
        | true => exact absurd (@startsW_any _ v (fun c => c == '-') h1 (by decide)) (by simp [hv])
        | false =>
            cases h2 : startsW ['e', 'n', '-', 'C', 'A', '-'] v with
            | true => exact absurd (@startsW_any _ v (fun c => c == '-') h2 (by decide)) (by simp [hv])
            | false => simp
  refine ⟨key, ?_, ?_⟩ <;>
    cases hv : v.any (fun c => c == '-') <;>
      simp_all [setupVoiceConfig, key]

end VoiceConsole
